import Mathlib

/-!
A shallow embedding of the leveldb table builder (`table/table_builder.cc`)
and of the arena allocator's aligned-allocation path (`util/arena.cc`),
with proofs of the specified properties.

Byte strings are modelled as `List Nat`.  The external collaborators the
builder borrows (comparator, block serialization, compression codec, CRC,
filter policy, output sink fault pattern) are capabilities injected through
an `Env` record, mirroring the capability interfaces of the spec (section 6);
the builder's own control flow is transcribed from `table_builder.cc`.
-/

abbrev ByteStr := List Nat

/-- The compression type codes of the format: 0 = none, 1 = snappy. -/
inductive CompressionType where
  | kNoCompression
  | kSnappyCompression
deriving DecidableEq, Repr

/-- Builder status, as latched in `Rep::status`.  `ioError i` records a failed
sink append and `flushError i` a failed sink flush (each tagged with the
index of the failing call so distinct failures are distinguishable);
`invalidArgument` is returned by `ChangeOptions`. -/
inductive Status where
  | ok
  | ioError (idx : Nat)
  | flushError (idx : Nat)
  | invalidArgument
deriving DecidableEq, Repr

/-- The options fields the table builder reads: the comparator identity
(pointer comparison in `ChangeOptions`), `block_restart_interval`,
`block_size`, the compression switch and the optional filter policy
(identified by a tag, as the builder only tests it against null and asks
for its name). -/
structure Options where
  comparator : Nat
  block_restart_interval : Nat
  block_size : Nat
  compression : CompressionType
  filter_policy : Option Nat
deriving DecidableEq, Repr

/-- A block handle: (offset, size) of a block payload, `format.h`. -/
structure BlockHandle where
  offset : Nat
  size : Nat
deriving DecidableEq, Repr

/-- Modelled from the spec: the default-constructed handle used before a
handle is assigned (`format.h` is not in the sources). -/
def BlockHandle.null : BlockHandle := ⟨0, 0⟩

/-- Modelled from the spec: little-endian base-128 varint encoding
(`handle := varint64 offset varint64 length`; `util/coding.cc` is not in
the sources). -/
def putVarint64 (v : Nat) : ByteStr :=
  if h : v < 128 then [v]
  else (v % 128 + 128) :: putVarint64 (v / 128)
decreasing_by
  exact Nat.div_lt_self (by omega) (by omega)

/-- Modelled from the spec: `BlockHandle::EncodeTo` appends the two varints. -/
def encodeBlockHandle (h : BlockHandle) : ByteStr :=
  putVarint64 h.offset ++ putVarint64 h.size

/-- Little-endian fixed 32-bit encoding (`EncodeFixed32`). -/
def encodeFixed32 (v : Nat) : ByteStr :=
  [v % 256, v / 256 % 256, v / 65536 % 256, v / 16777216 % 256]

/-- Little-endian fixed 64-bit encoding (`EncodeFixed64`). -/
def encodeFixed64 (v : Nat) : ByteStr :=
  encodeFixed32 (v % 4294967296) ++ encodeFixed32 (v / 4294967296)

/-- `kBlockTrailerSize`: 1 type byte + 4 CRC bytes. -/
def kBlockTrailerSize : Nat := 5

/-- Modelled from the spec: the table magic number of the footer. -/
def kTableMagicNumber : Nat := 0xdb4775248b80fb57

/-- `crc32c::Mask`: rotate right by 15 and add the mask delta, on 32 bits. -/
def maskCrc (c : Nat) : Nat :=
  let c := c % 4294967296
  (Nat.lor (c / 32768) (c * 131072 % 4294967296) + 0xa282ead8) % 4294967296

/-- Modelled from the spec: `Footer::EncodeTo` — the two handles, zero
padding up to the fixed 40-byte body, then the 8-byte magic
(`format.cc` is not in the sources). -/
def encodeFooter (metaindex index : BlockHandle) : ByteStr :=
  let body := encodeBlockHandle metaindex ++ encodeBlockHandle index
  body ++ List.replicate (40 - body.length) 0 ++ encodeFixed64 kTableMagicNumber

/-- Modelled from the spec: the state of the filter block builder seen by the
table builder — the `StartBlock` offsets received and the keys added
(`filter_block.cc` is not in the sources; section 4.3 of the spec). -/
structure FilterState where
  startCalls : List Nat
  keys : List ByteStr
deriving DecidableEq, Repr

/-- The fresh filter builder state (`FilterBlockBuilder` constructor). -/
def FilterState.init : FilterState := ⟨[], []⟩

/-- The injected capabilities: the comparator's three operations, the
compression codec, the CRC function, the block accumulator's serialization
and size estimate (section 4.1; `block_builder.cc` is not in the sources),
the filter builder's serialization, the filter policy names, and the fault
patterns of the output sink (`failSet n` is true when the n-th `Append`
call on the sink fails, `flushFailSet n` when the n-th `Flush` call on the
sink fails). -/
structure Env where
  compare : ByteStr → ByteStr → Int
  findShortestSeparator : ByteStr → ByteStr → ByteStr
  findShortSuccessor : ByteStr → ByteStr
  snappyCompress : ByteStr → Option ByteStr
  crc32 : ByteStr → Nat
  blockFinish : Options → List (ByteStr × ByteStr) → ByteStr
  sizeEstimate : Options → List (ByteStr × ByteStr) → Nat
  filterFinish : List Nat → List ByteStr → ByteStr
  policyName : Nat → ByteStr
  failSet : Nat → Bool
  flushFailSet : Nat → Bool

/-- `TableBuilder::Rep` together with the borrowed output sink's observable
state: `file_pieces` is the list of successfully appended byte pieces,
`append_count` counts every `Append` call (successful or not) to index the
fault pattern, and `flush_requests` counts the sink `Flush()` calls.  Block
accumulators are represented by their entry lists; their serialization is
the `blockFinish` capability. -/
structure TableRep where
  options : Options
  index_block_options : Options
  offset : Nat
  status : Status
  data_block : List (ByteStr × ByteStr)
  index_block : List (ByteStr × ByteStr)
  last_key : ByteStr
  num_entries : Nat
  closed : Bool
  filter_block : Option FilterState
  pending_index_entry : Bool
  pending_handle : BlockHandle
  file_pieces : List ByteStr
  append_count : Nat
  flush_requests : Nat
deriving DecidableEq, Repr

/-- Total bytes successfully appended to the output sink. -/
def sinkBytes (r : TableRep) : Nat := (r.file_pieces.map List.length).sum

/-- `WritableFile::Append`: consults the fault pattern; on success the piece
is appended to the sink, on failure nothing is written.  Returns the status
of the call (the caller stores it into `Rep::status`, as the source does). -/
def sinkAppend (env : Env) (r : TableRep) (b : ByteStr) : TableRep × Status :=
  if env.failSet r.append_count then
    ({ r with append_count := r.append_count + 1 }, Status.ioError r.append_count)
  else
    ({ r with file_pieces := r.file_pieces ++ [b],
              append_count := r.append_count + 1 }, Status.ok)

/-- `WritableFile::Flush`: consults the flush fault pattern at the number of
flush calls made so far; the call is counted whether or not it succeeds.
Returns the status of the call (the caller stores it into `Rep::status`,
as the source does). -/
def sinkFlush (env : Env) (r : TableRep) : TableRep × Status :=
  if env.flushFailSet r.flush_requests then
    ({ r with flush_requests := r.flush_requests + 1 },
     Status.flushError r.flush_requests)
  else
    ({ r with flush_requests := r.flush_requests + 1 }, Status.ok)

/-- The 5-byte block trailer: type byte, then the masked CRC over
(payload ++ type byte), little-endian (`TableBuilder::WriteRawBlock`). -/
def trailerOf (env : Env) (contents : ByteStr) (ty : Nat) : ByteStr :=
  ty :: encodeFixed32 (maskCrc (env.crc32 (contents ++ [ty])))

namespace TableBuilder

/-- `TableBuilder::Rep::TableRep`: fields as initialized by the constructor;
`index_block_options.block_restart_interval` is forced to 1. -/
def mkRep (opt : Options) : TableRep where
  options := opt
  index_block_options := { opt with block_restart_interval := 1 }
  offset := 0
  status := Status.ok
  data_block := []
  index_block := []
  last_key := []
  num_entries := 0
  closed := false
  filter_block := opt.filter_policy.map (fun _ => FilterState.init)
  pending_index_entry := false
  pending_handle := BlockHandle.null
  file_pieces := []
  append_count := 0
  flush_requests := 0

/-- `TableBuilder::TableBuilder`: builds the `Rep` and, when a filter policy
is configured, calls `filter_block->StartBlock(0)`. -/
def new (opt : Options) : TableRep :=
  let r := mkRep opt
  match r.filter_block with
  | some fb => { r with filter_block := some { fb with startCalls := fb.startCalls ++ [0] } }
  | none => r

/-- `TableBuilder::WriteRawBlock`: set the handle from the current offset and
the payload length, append the payload, then on success append the 5-byte
trailer and on a second success advance the offset by payload + trailer. -/
def WriteRawBlock (env : Env) (r : TableRep) (contents : ByteStr) (ty : Nat) :
    TableRep × BlockHandle :=
  let handle : BlockHandle := ⟨r.offset, contents.length⟩
  let a1 := sinkAppend env r contents
  let r1 := { a1.1 with status := a1.2 }
  if r1.status = Status.ok then
    let a2 := sinkAppend env r1 (trailerOf env contents ty)
    let r2 := { a2.1 with status := a2.2 }
    if r2.status = Status.ok then
      ({ r2 with offset := r2.offset + contents.length + kBlockTrailerSize }, handle)
    else (r2, handle)
  else (r1, handle)

/-- The compression switch of `TableBuilder::WriteBlock`: payload and type
byte chosen from the compression policy; snappy output is used only when
compression succeeds and saves at least one eighth of the raw length. -/
def compressSelect (env : Env) (ct : CompressionType) (raw : ByteStr) :
    ByteStr × Nat :=
  match ct with
  | CompressionType.kNoCompression => (raw, 0)
  | CompressionType.kSnappyCompression =>
    match env.snappyCompress raw with
    | some c =>
      if c.length < raw.length - raw.length / 8 then (c, 1) else (raw, 0)
    | none => (raw, 0)

/-- `TableBuilder::WriteBlock`: serialize the accumulator (with the block's
own options), pick compression, and write through `WriteRawBlock`.  The
source's `block->Reset()` is performed by the callers in this model (they
own the entry lists). -/
def WriteBlock (env : Env) (r : TableRep) (blockOpts : Options)
    (entries : List (ByteStr × ByteStr)) : TableRep × BlockHandle :=
  let raw := env.blockFinish blockOpts entries
  let ct := compressSelect env r.options.compression raw
  WriteRawBlock env r ct.1 ct.2

/-- `TableBuilder::Flush`: on an ok, non-empty builder, write the data block,
store its handle as `pending_handle`, reset the data accumulator; when the
write succeeded, set the pending-index-entry flag and then store the result
of the sink's own (fallible) `Flush()` into the status; in all non-empty
cases notify the filter builder that a new block starts at the (possibly
unchanged) current offset. -/
def Flush (env : Env) (r : TableRep) : TableRep :=
  if r.status ≠ Status.ok then r
  else if r.data_block.isEmpty then r
  else
    let wb := WriteBlock env r r.options r.data_block
    let r1 := { wb.1 with data_block := [], pending_handle := wb.2 }
    let r2 :=
      if r1.status = Status.ok then
        let f := sinkFlush env { r1 with pending_index_entry := true }
        { f.1 with status := f.2 }
      else r1
    match r2.filter_block with
    | some fb =>
      { r2 with filter_block := some { fb with startCalls := fb.startCalls ++ [r2.offset] } }
    | none => r2

/-- The body of `TableBuilder::Add` up to the flush check: materialize a
deferred index entry (computing the short separator into `last_key`, as the
source mutates it in place), feed the key to the filter builder, record
`last_key`, bump the entry count, append to the data accumulator. -/
def addCore (env : Env) (r : TableRep) (key value : ByteStr) : TableRep :=
  let r :=
    if r.pending_index_entry then
      let sep := env.findShortestSeparator r.last_key key
      { r with last_key := sep,
               index_block := r.index_block ++ [(sep, encodeBlockHandle r.pending_handle)],
               pending_index_entry := false }
    else r
  let r :=
    match r.filter_block with
    | some fb => { r with filter_block := some { fb with keys := fb.keys ++ [key] } }
    | none => r
  { r with last_key := key, num_entries := r.num_entries + 1,
           data_block := r.data_block ++ [(key, value)] }

/-- `TableBuilder::Add`: on an ok builder, run the body and flush when the
data block's size estimate reaches the configured block size. -/
def Add (env : Env) (r : TableRep) (key value : ByteStr) : TableRep :=
  if r.status ≠ Status.ok then r
  else
    let r := addCore env r key value
    if env.sizeEstimate r.options r.data_block ≥ r.options.block_size then
      Flush env r
    else r

/-- `TableBuilder::ChangeOptions`: reject a comparator change with an
invalid-argument status; otherwise install the new options, forcing the
index block's restart interval back to 1. -/
def ChangeOptions (r : TableRep) (options : Options) : Status × TableRep :=
  if options.comparator ≠ r.options.comparator then
    (Status.invalidArgument, r)
  else
    (Status.ok,
     { r with options := options,
              index_block_options := { options with block_restart_interval := 1 } })

/-- The "write filter block" step of `TableBuilder::Finish`: when the status
is ok and a filter builder exists, its serialized output is written as a
raw block with compression type 0. -/
def finishFilterStep (env : Env) (r : TableRep) : TableRep × BlockHandle :=
  if r.status = Status.ok then
    match r.filter_block with
    | some fb => WriteRawBlock env r (env.filterFinish fb.startCalls fb.keys) 0
    | none => (r, BlockHandle.null)
  else (r, BlockHandle.null)

/-- The "write metaindex block" step of `TableBuilder::Finish`: a fresh block
with the `"filter.<name>" -> filter handle` entry when a filter builder
exists, written through the normal `WriteBlock` path. -/
def finishMetaStep (env : Env) (r : TableRep) (filter_block_handle : BlockHandle) :
    TableRep × BlockHandle :=
  if r.status = Status.ok then
    let meta_entries : List (ByteStr × ByteStr) :=
      match r.filter_block with
      | some _ =>
        [([102, 105, 108, 116, 101, 114, 46] ++
            env.policyName (r.options.filter_policy.getD 0),
          encodeBlockHandle filter_block_handle)]
      | none => []
    WriteBlock env r r.options meta_entries
  else (r, BlockHandle.null)

/-- The "write index block" step of `TableBuilder::Finish`: a still-pending
index entry is materialized with the short successor of `last_key`, then the
index accumulator is written and reset. -/
def finishIndexStep (env : Env) (r : TableRep) : TableRep × BlockHandle :=
  if r.status = Status.ok then
    let r :=
      if r.pending_index_entry then
        let succ := env.findShortSuccessor r.last_key
        { r with last_key := succ,
                 index_block := r.index_block ++ [(succ, encodeBlockHandle r.pending_handle)],
                 pending_index_entry := false }
      else r
    let wb := WriteBlock env r r.index_block_options r.index_block
    ({ wb.1 with index_block := [] }, wb.2)
  else (r, BlockHandle.null)

/-- The "write footer" step of `TableBuilder::Finish`: append the encoded
footer and advance the offset on success. -/
def finishFooterStep (env : Env) (r : TableRep)
    (metaindex_block_handle index_block_handle : BlockHandle) : TableRep :=
  if r.status = Status.ok then
    let fenc := encodeFooter metaindex_block_handle index_block_handle
    let a := sinkAppend env r fenc
    let r1 := { a.1 with status := a.2 }
    if r1.status = Status.ok then { r1 with offset := r1.offset + fenc.length }
    else r1
  else r

/-- `TableBuilder::Finish`: flush, mark closed, then — each step gated on an
ok status — write the filter block raw, the metaindex block (with the
`"filter.<name>"` entry when a filter builder exists), the index block
(materializing a still-pending entry via the short successor), and the
footer. -/
def Finish (env : Env) (r : TableRep) : TableRep :=
  let r := Flush env r
  let r := { r with closed := true }
  let fstep := finishFilterStep env r
  let mstep := finishMetaStep env fstep.1 fstep.2
  let istep := finishIndexStep env mstep.1
  finishFooterStep env istep.1 mstep.2 istep.2

/-- `TableBuilder::Abandon`. -/
def Abandon (r : TableRep) : TableRep := { r with closed := true }

/-- `TableBuilder::NumEntries`. -/
def NumEntries (r : TableRep) : Nat := r.num_entries

/-- `TableBuilder::FileSize`. -/
def FileSize (r : TableRep) : Nat := r.offset

/-- The builder states reachable from a fresh builder through the public
operations, under the asserted preconditions (`assert(!closed)` everywhere;
strictly increasing keys in `Add`). -/
inductive Reachable (env : Env) : TableRep → Prop where
  | init (opt : Options) : Reachable env (new opt)
  | add (r : TableRep) (k v : ByteStr) : Reachable env r → r.closed = false →
      (0 < r.num_entries → 0 < env.compare k r.last_key) →
      Reachable env (Add env r k v)
  | flush (r : TableRep) : Reachable env r → r.closed = false →
      Reachable env (Flush env r)
  | finish (r : TableRep) : Reachable env r → r.closed = false →
      Reachable env (Finish env r)
  | abandon (r : TableRep) : Reachable env r → r.closed = false →
      Reachable env (Abandon r)
  | changeOptions (r : TableRep) (o : Options) : Reachable env r →
      Reachable env (ChangeOptions r o).2

/-- The builder's run-time invariant: when the status is ok the offset
equals the bytes appended to the sink, the offset never exceeds the sink
bytes (a trailer-append failure can leave an orphan payload in the sink),
the pending-index-entry flag implies an empty data accumulator, and the
index block options keep restart interval 1. -/
def GoodState (r : TableRep) : Prop :=
  (r.status = Status.ok → r.offset = sinkBytes r) ∧
  r.offset ≤ sinkBytes r ∧
  (r.pending_index_entry = true → r.data_block = []) ∧
  r.index_block_options.block_restart_interval = 1

end TableBuilder

namespace Arena

/-- `kBlockSize` of `util/arena.cc`. -/
def kBlockSize : Nat := 4096

/-- The capabilities the arena borrows from the system allocator: the word
size of the platform and the address handed out by `new char[n]` for the
i-th block allocation (addresses are modelled as natural numbers). -/
structure AllocEnv where
  ptrSize : Nat
  fresh : Nat → Nat

/-- `align` as computed at the top of `Arena::AllocateAligned`:
`sizeof(void*)` when that exceeds 8, else 8. -/
def AllocEnv.align (env : AllocEnv) : Nat :=
  if env.ptrSize > 8 then env.ptrSize else 8

/-- The arena's mutable state: the bump pointer, the bytes remaining in the
current block, the addresses of the allocated blocks and the memory usage
counter. -/
structure ArenaState where
  alloc_ptr : Nat
  alloc_bytes_remaining : Nat
  blocks : List Nat
  memory_usage : Nat
deriving DecidableEq, Repr

/-- `Arena::Arena()`. -/
def init : ArenaState :=
  { alloc_ptr := 0, alloc_bytes_remaining := 0, blocks := [], memory_usage := 0 }

/-- `Arena::AllocateNewBlock`: obtain a fresh block from the system
allocator, record it and account for it. -/
def AllocateNewBlock (env : AllocEnv) (a : ArenaState) (block_bytes : Nat) :
    ArenaState × Nat :=
  let result := env.fresh a.blocks.length
  ({ a with blocks := a.blocks ++ [result],
            memory_usage := a.memory_usage + block_bytes + env.ptrSize }, result)

/-- `Arena::AllocateFallback`: a request above a quarter block gets its own
block; otherwise the current block is abandoned, a fresh standard block is
installed and the request is served from its start. -/
def AllocateFallback (env : AllocEnv) (a : ArenaState) (bytes : Nat) :
    ArenaState × Nat :=
  if bytes > kBlockSize / 4 then
    AllocateNewBlock env a bytes
  else
    let nb := AllocateNewBlock env a kBlockSize
    ({ nb.1 with alloc_ptr := nb.2 + bytes,
                 alloc_bytes_remaining := kBlockSize - bytes }, nb.2)

/-- `Arena::AllocateAligned`: compute the slop needed to align the bump
pointer; serve the padded request in the current block when it fits, else
fall back to a fresh block. -/
def AllocateAligned (env : AllocEnv) (a : ArenaState) (bytes : Nat) :
    ArenaState × Nat :=
  let align := env.align
  let current_mod := a.alloc_ptr &&& (align - 1)
  let slop := if current_mod = 0 then 0 else align - current_mod
  let needed := bytes + slop
  if needed ≤ a.alloc_bytes_remaining then
    ({ a with alloc_ptr := a.alloc_ptr + needed,
              alloc_bytes_remaining := a.alloc_bytes_remaining - needed },
     a.alloc_ptr + slop)
  else
    AllocateFallback env a bytes

end Arena

/-! Concrete capability instances used to exercise the model on closed runs. -/

/-- Bytewise lexicographic comparison, the order of the default comparator. -/
def lexCompare : ByteStr → ByteStr → Int
  | [], [] => 0
  | [], _ :: _ => -1
  | _ :: _, [] => 1
  | a :: as, b :: bs => if a < b then -1 else if b < a then 1 else lexCompare as bs

/-- A concrete environment: identity separator and successor (legal comparator
behaviour), no snappy support, zero CRC, block serialization that
concatenates the entries and appends an 8-byte restart array, a size
estimate carrying the per-entry overhead, and a sink that never fails. -/
def envBase : Env where
  compare := lexCompare
  findShortestSeparator := fun a _ => a
  findShortSuccessor := fun a => a
  snappyCompress := fun _ => none
  crc32 := fun _ => 0
  blockFinish := fun _ es => (es.map (fun e => e.1 ++ e.2)).flatten ++ [0, 0, 0, 0, 1, 0, 0, 0]
  sizeEstimate := fun _ es => (es.map (fun e => e.1.length + e.2.length + 8)).sum + 8
  filterFinish := fun _ _ => [0, 0, 0, 0, 11]
  policyName := fun _ => [98, 102]
  failSet := fun _ => false
  flushFailSet := fun _ => false

/-- The base environment with a sink whose first `Append` call fails. -/
def envFail0 : Env := { envBase with failSet := fun n => n == 0 }

/-- The base environment with a sink whose second `Append` call fails. -/
def envFail1 : Env := { envBase with failSet := fun n => n == 1 }

/-- The base environment with a snappy codec that compresses every payload
to the single byte 7. -/
def envSnappy : Env :=
  { envBase with snappyCompress := fun _ => some [7] }

/-- Options with no filter policy and no compression. -/
def optPlain : Options :=
  { comparator := 0, block_restart_interval := 16, block_size := 4096,
    compression := CompressionType.kNoCompression, filter_policy := none }

/-- Options with a filter policy configured. -/
def optFilter : Options := { optPlain with filter_policy := some 0 }

/-- Options selecting snappy compression. -/
def optSnappy : Options :=
  { optPlain with compression := CompressionType.kSnappyCompression }

/-- A builder state with a latched sink-append error. -/
def repErr : TableRep := { TableBuilder.new optPlain with status := Status.ioError 0 }

/-- A builder state with a staged pending index entry, as left by a flush of
a first data block of 18 payload bytes. -/
def repPending : TableRep :=
  { TableBuilder.new optPlain with
    pending_index_entry := true, last_key := [97], num_entries := 1,
    pending_handle := ⟨0, 18⟩, offset := 23 }

/-- An allocator environment for a 64-bit platform whose fresh blocks all
land at address 0 modulo the alignment. -/
def allocEnv8 : Arena.AllocEnv := { ptrSize := 8, fresh := fun _ => 0 }

/-! ## Theorems -/

/-- The block trailer is exactly `kBlockTrailerSize` = 5 bytes. -/
theorem trailerOf_length (env : Env) (c : ByteStr) (t : Nat) :
    (trailerOf env c t).length = 5 := by
  simp [trailerOf, encodeFixed32]

/-- Bookkeeping of `WriteRawBlock`: the handle is set from the pre-call
offset and the payload length in all cases; all builder fields other than
the sink, the status and the offset are untouched; and the offset advances
by payload + trailer exactly when both appends succeed, while a failed
append leaves the offset where it was (the sink keeping the orphan payload
when only the trailer append failed). -/
theorem writeRawBlock_spec (env : Env) (r : TableRep) (c : ByteStr) (t : Nat) :
    (TableBuilder.WriteRawBlock env r c t).2 = ⟨r.offset, c.length⟩ ∧
    ((TableBuilder.WriteRawBlock env r c t).1.data_block = r.data_block ∧
     (TableBuilder.WriteRawBlock env r c t).1.index_block = r.index_block ∧
     (TableBuilder.WriteRawBlock env r c t).1.pending_index_entry = r.pending_index_entry ∧
     (TableBuilder.WriteRawBlock env r c t).1.index_block_options = r.index_block_options ∧
     (TableBuilder.WriteRawBlock env r c t).1.options = r.options ∧
     (TableBuilder.WriteRawBlock env r c t).1.closed = r.closed ∧
     (TableBuilder.WriteRawBlock env r c t).1.num_entries = r.num_entries ∧
     (TableBuilder.WriteRawBlock env r c t).1.last_key = r.last_key ∧
     (TableBuilder.WriteRawBlock env r c t).1.filter_block = r.filter_block ∧
     (TableBuilder.WriteRawBlock env r c t).1.flush_requests = r.flush_requests ∧
     (TableBuilder.WriteRawBlock env r c t).1.pending_handle = r.pending_handle) ∧
    (((TableBuilder.WriteRawBlock env r c t).1.status = Status.ok ∧
        (TableBuilder.WriteRawBlock env r c t).1.offset = r.offset + (c.length + 5) ∧
        sinkBytes (TableBuilder.WriteRawBlock env r c t).1 = sinkBytes r + (c.length + 5)) ∨
     ((TableBuilder.WriteRawBlock env r c t).1.status ≠ Status.ok ∧
        (TableBuilder.WriteRawBlock env r c t).1.offset = r.offset ∧
        (sinkBytes (TableBuilder.WriteRawBlock env r c t).1 = sinkBytes r ∨
         sinkBytes (TableBuilder.WriteRawBlock env r c t).1 = sinkBytes r + c.length))) := by
  unfold TableBuilder.WriteRawBlock sinkAppend
  by_cases h1 : env.failSet r.append_count
  · simp [h1, sinkBytes]
  · by_cases h2 : env.failSet (r.append_count + 1)
    · simp [h1, h2, sinkBytes]
    · simp [h1, h2, sinkBytes, trailerOf_length, kBlockTrailerSize, Nat.add_assoc]

/-- C10: for every request size, `Arena::AllocateAligned` returns an address
that is a multiple of `max(sizeof(void*), 8)` — either by skipping the slop
bytes needed to align the bump pointer when the padded request fits in the
current block, or by falling back to a fresh block allocation, which the
system allocator aligns — so the alignment assertion at the end of the
function never fails.  The hypotheses are the function's own
`static_assert` (the alignment is a power of two) and the alignment
guarantee of `new char[]`. -/
theorem c10_allocateAligned_aligned (env : Arena.AllocEnv) (a : Arena.ArenaState)
    (bytes : Nat) (k : Nat) (halign : env.align = 2 ^ k)
    (hfresh : ∀ i, env.fresh i % env.align = 0) :
    (Arena.AllocateAligned env a bytes).2 % env.align = 0 := by
  have hfall : (Arena.AllocateFallback env a bytes).2 % env.align = 0 := by
    unfold Arena.AllocateFallback Arena.AllocateNewBlock
    split
    · exact hfresh _
    · exact hfresh _
  unfold Arena.AllocateAligned
  dsimp only
  rw [halign, Nat.and_pow_two_sub_one_eq_mod]
  by_cases h0 : a.alloc_ptr % 2 ^ k = 0
  · simp only [h0, ite_true]
    split
    · simpa using h0
    · rw [← halign]; exact hfall
  · simp only [h0, ite_false]
    split
    · have h1 : a.alloc_ptr % 2 ^ k < 2 ^ k := Nat.mod_lt _ (by positivity)
      have h2 : a.alloc_ptr % 2 ^ k + 2 ^ k * (a.alloc_ptr / 2 ^ k) = a.alloc_ptr :=
        Nat.mod_add_div _ _
      have h3 : a.alloc_ptr + (2 ^ k - a.alloc_ptr % 2 ^ k)
          = 2 ^ k * (a.alloc_ptr / 2 ^ k) + 2 ^ k := by omega
      dsimp only
      rw [h3, Nat.mul_add_mod, Nat.mod_self]
    · rw [← halign]; exact hfall

/-- Witness for C10 at a concrete 64-bit environment, arena state and
request size. -/
theorem c10_allocateAligned_aligned_witness :
    (Arena.AllocateAligned allocEnv8 Arena.init 13).2 % allocEnv8.align = 0 :=
  c10_allocateAligned_aligned allocEnv8 Arena.init 13 3 rfl (fun _ => rfl)

/-- `WriteBlock` is `WriteRawBlock` applied to the payload and type byte
chosen by the compression switch. -/
theorem writeBlock_eq (env : Env) (r : TableRep) (bo : Options)
    (es : List (ByteStr × ByteStr)) :
    TableBuilder.WriteBlock env r bo es =
      TableBuilder.WriteRawBlock env r
        (TableBuilder.compressSelect env r.options.compression (env.blockFinish bo es)).1
        (TableBuilder.compressSelect env r.options.compression (env.blockFinish bo es)).2 :=
  rfl

/-- Bookkeeping of a non-empty `Flush` on an ok builder: the data
accumulator is drained, the handle of the written block is staged as
`pending_handle`, the untouched fields are framed, the filter builder
receives `StartBlock` at the post-write offset in all cases, and the
pending-index-entry flag, the sink-flush request and the offset advance
happen exactly when the block write succeeded. -/
theorem flush_spec (env : Env) (r : TableRep) (hok : r.status = Status.ok)
    (hne : r.data_block ≠ []) :
    (TableBuilder.Flush env r).data_block = [] ∧
    (TableBuilder.Flush env r).pending_handle =
      ⟨r.offset, (TableBuilder.compressSelect env r.options.compression
          (env.blockFinish r.options r.data_block)).1.length⟩ ∧
    (TableBuilder.Flush env r).num_entries = r.num_entries ∧
    (TableBuilder.Flush env r).last_key = r.last_key ∧
    (TableBuilder.Flush env r).index_block = r.index_block ∧
    (TableBuilder.Flush env r).closed = r.closed ∧
    (TableBuilder.Flush env r).options = r.options ∧
    (TableBuilder.Flush env r).index_block_options = r.index_block_options ∧
    (TableBuilder.Flush env r).filter_block.map FilterState.keys =
      r.filter_block.map FilterState.keys ∧
    (TableBuilder.Flush env r).filter_block.map FilterState.startCalls =
      r.filter_block.map (fun fb => fb.startCalls ++ [(TableBuilder.Flush env r).offset]) ∧
    ((TableBuilder.WriteBlock env r r.options r.data_block).1.status = Status.ok →
        (TableBuilder.Flush env r).pending_index_entry = true ∧
        (TableBuilder.Flush env r).flush_requests = r.flush_requests + 1 ∧
        (TableBuilder.Flush env r).offset = r.offset +
          ((TableBuilder.compressSelect env r.options.compression
              (env.blockFinish r.options r.data_block)).1.length + 5) ∧
        sinkBytes (TableBuilder.Flush env r) = sinkBytes r +
          ((TableBuilder.compressSelect env r.options.compression
              (env.blockFinish r.options r.data_block)).1.length + 5) ∧
        ((TableBuilder.Flush env r).status = Status.ok ↔
          env.flushFailSet r.flush_requests = false)) ∧
    ((TableBuilder.WriteBlock env r r.options r.data_block).1.status ≠ Status.ok →
        (TableBuilder.Flush env r).status ≠ Status.ok ∧
        (TableBuilder.Flush env r).pending_index_entry = r.pending_index_entry ∧
        (TableBuilder.Flush env r).flush_requests = r.flush_requests ∧
        (TableBuilder.Flush env r).offset = r.offset ∧
        (sinkBytes (TableBuilder.Flush env r) = sinkBytes r ∨
         sinkBytes (TableBuilder.Flush env r) = sinkBytes r +
           (TableBuilder.compressSelect env r.options.compression
              (env.blockFinish r.options r.data_block)).1.length)) := by
  have hne' : r.data_block.isEmpty = false := by
    simpa [List.isEmpty_iff] using hne
  obtain ⟨hh, ⟨f1, f2, f3, f4, f5, f6, f7, f8, f9, f10, f11⟩, hacct⟩ :=
    writeRawBlock_spec env r
      (TableBuilder.compressSelect env r.options.compression
        (env.blockFinish r.options r.data_block)).1
      (TableBuilder.compressSelect env r.options.compression
        (env.blockFinish r.options r.data_block)).2
  unfold TableBuilder.Flush
  rw [writeBlock_eq]
  simp only [hok, ne_eq, not_true_eq_false, if_false, hne', Bool.false_eq_true, ite_false]
  rcases hacct with ⟨hs, ho, hb⟩ | ⟨hs, ho, hb⟩
  · simp only [hs, ite_true, f9]
    unfold sinkFlush
    by_cases hff : env.flushFailSet r.flush_requests = true
    all_goals cases hfb : r.filter_block
    all_goals simp_all [sinkBytes]
  · simp only [hs, ite_false, f9]
    cases hfb : r.filter_block with
    | none => simp_all [sinkBytes]
    | some fb => simp_all [sinkBytes]

/-- A non-ok status makes the filter step of `Finish` a no-op. -/
theorem finishFilterStep_err (env : Env) (r : TableRep) (h : r.status ≠ Status.ok) :
    TableBuilder.finishFilterStep env r = (r, BlockHandle.null) := by
  unfold TableBuilder.finishFilterStep; simp [h]

/-- A non-ok status makes the metaindex step of `Finish` a no-op. -/
theorem finishMetaStep_err (env : Env) (r : TableRep) (fh : BlockHandle)
    (h : r.status ≠ Status.ok) :
    TableBuilder.finishMetaStep env r fh = (r, BlockHandle.null) := by
  unfold TableBuilder.finishMetaStep; simp [h]

/-- A non-ok status makes the index step of `Finish` a no-op. -/
theorem finishIndexStep_err (env : Env) (r : TableRep) (h : r.status ≠ Status.ok) :
    TableBuilder.finishIndexStep env r = (r, BlockHandle.null) := by
  unfold TableBuilder.finishIndexStep; simp [h]

/-- A non-ok status makes the footer step of `Finish` a no-op. -/
theorem finishFooterStep_err (env : Env) (r : TableRep) (mh ih : BlockHandle)
    (h : r.status ≠ Status.ok) :
    TableBuilder.finishFooterStep env r mh ih = r := by
  unfold TableBuilder.finishFooterStep; simp [h]

/-- C7: once a sink append failure is latched in the builder's status, every
subsequent `Add` and `Flush` is the identity on the builder state (all
fields unchanged, the error preserved), and `Finish` returns the latched
error status. -/
theorem c7_sticky_error (env : Env) (r : TableRep) (k v : ByteStr) (i : Nat)
    (h : r.status = Status.ioError i) :
    TableBuilder.Add env r k v = r ∧ TableBuilder.Flush env r = r ∧
    (TableBuilder.Finish env r).status = Status.ioError i := by
  have hflush : TableBuilder.Flush env r = r := by
    unfold TableBuilder.Flush; simp [h]
  have hadd : TableBuilder.Add env r k v = r := by
    unfold TableBuilder.Add; simp [h]
  refine ⟨hadd, hflush, ?_⟩
  unfold TableBuilder.Finish
  rw [hflush]
  dsimp only
  have h1 : ({ r with closed := true } : TableRep).status = Status.ioError i := h
  rw [finishFilterStep_err env _ (by simp [h])]
  rw [finishMetaStep_err env _ _ (by simp [h])]
  rw [finishIndexStep_err env _ (by simp [h])]
  rw [finishFooterStep_err env _ _ _ (by simp [h])]
  exact h1

/-- Witness for C7 at a concrete errored builder state. -/
theorem c7_sticky_error_witness :
    TableBuilder.Add envBase repErr [97] [118] = repErr ∧
    TableBuilder.Flush envBase repErr = repErr ∧
    (TableBuilder.Finish envBase repErr).status = Status.ioError 0 :=
  c7_sticky_error envBase repErr [97] [118] 0 rfl

/-- A latched non-ok status makes `Flush` a no-op. -/
theorem flush_err (env : Env) (r : TableRep) (h : r.status ≠ Status.ok) :
    TableBuilder.Flush env r = r := by
  unfold TableBuilder.Flush; simp [h]

/-- An empty data accumulator makes `Flush` a no-op. -/
theorem flush_empty (env : Env) (r : TableRep) (h : r.data_block = []) :
    TableBuilder.Flush env r = r := by
  unfold TableBuilder.Flush; simp [h]

/-- A latched non-ok status makes `Add` a no-op. -/
theorem add_err (env : Env) (r : TableRep) (k v : ByteStr)
    (h : r.status ≠ Status.ok) : TableBuilder.Add env r k v = r := by
  unfold TableBuilder.Add; simp [h]

/-- `GoodState` only looks at the offset, status, sink pieces, index block
options, the pending flag and the data accumulator; a state agreeing on
those with a good state and clearing the pending flag is good. -/
theorem good_of_fields (r r' : TableRep) (h : TableBuilder.GoodState r)
    (h1 : r'.offset = r.offset) (h2 : r'.status = r.status)
    (h3 : r'.file_pieces = r.file_pieces)
    (h4 : r'.index_block_options = r.index_block_options)
    (h5 : r'.pending_index_entry = false) : TableBuilder.GoodState r' := by
  obtain ⟨a, b, c, d⟩ := h
  refine ⟨?_, ?_, ?_, ?_⟩
  · intro hs; rw [h1, sinkBytes, h3]; exact a (h2 ▸ hs)
  · rw [h1, sinkBytes, h3]; exact b
  · rw [h5]; intro hfalse; exact absurd hfalse (by simp)
  · rw [h4]; exact d

/-- As `good_of_fields`, but preserving the pending flag and the data
accumulator instead of clearing the flag. -/
theorem good_of_fields' (r r' : TableRep) (h : TableBuilder.GoodState r)
    (h1 : r'.offset = r.offset) (h2 : r'.status = r.status)
    (h3 : r'.file_pieces = r.file_pieces)
    (h4 : r'.index_block_options = r.index_block_options)
    (h5 : r'.pending_index_entry = r.pending_index_entry)
    (h6 : r'.data_block = r.data_block) : TableBuilder.GoodState r' := by
  obtain ⟨a, b, c, d⟩ := h
  refine ⟨?_, ?_, ?_, ?_⟩
  · intro hs; rw [h1, sinkBytes, h3]; exact a (h2 ▸ hs)
  · rw [h1, sinkBytes, h3]; exact b
  · rw [h5, h6]; exact c
  · rw [h4]; exact d

/-- A fresh builder is in a good state. -/
theorem good_new (opt : Options) : TableBuilder.GoodState (TableBuilder.new opt) := by
  cases hfp : opt.filter_policy <;>
    simp [TableBuilder.new, TableBuilder.mkRep, TableBuilder.GoodState, sinkBytes, hfp]

/-- `WriteRawBlock` keeps an ok builder in a good state. -/
theorem good_wrb (env : Env) (r : TableRep) (c : ByteStr) (t : Nat)
    (hok : r.status = Status.ok) (h : TableBuilder.GoodState r) :
    TableBuilder.GoodState (TableBuilder.WriteRawBlock env r c t).1 := by
  obtain ⟨hoff, hle, hpd, hbri⟩ := h
  obtain ⟨hh, ⟨f1, f2, f3, f4, f5, f6, f7, f8, f9, f10, f11⟩, hacct⟩ :=
    writeRawBlock_spec env r c t
  refine ⟨?_, ?_, ?_, ?_⟩
  · intro hs
    rcases hacct with ⟨_, ho, hb⟩ | ⟨hs', _, _⟩
    · rw [ho, hb, hoff hok]
    · exact absurd hs hs'
  · rcases hacct with ⟨_, ho, hb⟩ | ⟨_, ho, hb⟩
    · rw [ho, hb]; omega
    · rcases hb with hb | hb <;> rw [ho, hb] <;> omega
  · rw [f3, f1]; exact hpd
  · rw [f4]; exact hbri

/-- `Flush` keeps the builder in a good state. -/
theorem good_flush (env : Env) (r : TableRep) (h : TableBuilder.GoodState r) :
    TableBuilder.GoodState (TableBuilder.Flush env r) := by
  by_cases hok : r.status = Status.ok
  · by_cases hemp : r.data_block = []
    · rw [flush_empty env r hemp]; exact h
    · obtain ⟨hd, hph, hn, hl, hi, hc, hop, hio, hfk, hfs, hw, hf⟩ :=
        flush_spec env r hok hemp
      obtain ⟨hoff, hle, hpd, hbri⟩ := h
      by_cases hws : (TableBuilder.WriteBlock env r r.options r.data_block).1.status
          = Status.ok
      · obtain ⟨hp, hfr, ho, hb, hiff⟩ := hw hws
        refine ⟨?_, ?_, ?_, ?_⟩
        · intro _; rw [ho, hb, hoff hok]
        · rw [ho, hb]; omega
        · intro _; exact hd
        · rw [hio]; exact hbri
      · obtain ⟨hs', hp, hfr, ho, hb⟩ := hf hws
        refine ⟨?_, ?_, ?_, ?_⟩
        · intro hs; exact absurd hs hs'
        · rcases hb with hb | hb <;> rw [ho, hb] <;> omega
        · intro _; exact hd
        · rw [hio]; exact hbri
  · rw [flush_err env r hok]; exact h

/-- `Add` keeps the builder in a good state. -/
theorem good_add (env : Env) (r : TableRep) (k v : ByteStr)
    (h : TableBuilder.GoodState r) :
    TableBuilder.GoodState (TableBuilder.Add env r k v) := by
  by_cases hok : r.status = Status.ok
  · unfold TableBuilder.Add TableBuilder.addCore
    simp only [hok, ne_eq, not_true_eq_false, if_false, ite_false]
    by_cases hp : r.pending_index_entry = true
    all_goals cases hfb : r.filter_block
    all_goals simp only [hp, hfb, ite_true, ite_false, Bool.not_eq_true,
      Bool.false_eq_true]
    all_goals split
    all_goals
      first
      | exact good_flush env _ (good_of_fields r _ h rfl (by rw [hok]) rfl rfl rfl)
      | exact good_of_fields r _ h rfl (by rw [hok]) rfl rfl rfl
  · rw [add_err env r k v hok]; exact h

/-- The closed flag does not affect goodness. -/
theorem good_closed (r : TableRep) (h : TableBuilder.GoodState r) :
    TableBuilder.GoodState ({ r with closed := true } : TableRep) :=
  good_of_fields' r _ h rfl rfl rfl rfl rfl rfl

/-- The filter step of `Finish` keeps the builder in a good state. -/
theorem good_filterStep (env : Env) (r : TableRep) (h : TableBuilder.GoodState r) :
    TableBuilder.GoodState (TableBuilder.finishFilterStep env r).1 := by
  unfold TableBuilder.finishFilterStep
  by_cases hok : r.status = Status.ok
  · simp only [hok, ite_true]
    cases hfb : r.filter_block with
    | none => exact h
    | some fb => exact good_wrb env r _ 0 hok h
  · simp only [hok, ite_false]
    exact h

/-- The metaindex step of `Finish` keeps the builder in a good state. -/
theorem good_metaStep (env : Env) (r : TableRep) (fh : BlockHandle)
    (h : TableBuilder.GoodState r) :
    TableBuilder.GoodState (TableBuilder.finishMetaStep env r fh).1 := by
  unfold TableBuilder.finishMetaStep
  by_cases hok : r.status = Status.ok
  · simp only [hok, ite_true]
    rw [writeBlock_eq]
    exact good_wrb env r _ _ hok h
  · simp only [hok, ite_false]
    exact h

/-- The index step of `Finish` keeps the builder in a good state. -/
theorem good_indexStep (env : Env) (r : TableRep) (h : TableBuilder.GoodState r) :
    TableBuilder.GoodState (TableBuilder.finishIndexStep env r).1 := by
  unfold TableBuilder.finishIndexStep
  by_cases hok : r.status = Status.ok
  · simp only [hok, ite_true]
    by_cases hp : r.pending_index_entry = true
    all_goals simp only [hp, ite_true, ite_false, Bool.not_eq_true, Bool.false_eq_true]
    · rw [writeBlock_eq]
      refine good_of_fields' _ _ (good_wrb env _ _ _ rfl ?_) rfl rfl rfl rfl rfl rfl
      exact good_of_fields r _ h rfl hok.symm rfl rfl rfl
    · rw [writeBlock_eq]
      refine good_of_fields' _ _ (good_wrb env _ _ _ (by exact hok) ?_) rfl rfl rfl rfl rfl rfl
      exact good_of_fields' r _ h rfl rfl rfl rfl rfl rfl
  · simp only [hok, ite_false]
    exact h

/-- The footer step of `Finish` keeps the builder in a good state. -/
theorem good_footerStep (env : Env) (r : TableRep) (mh ih : BlockHandle)
    (h : TableBuilder.GoodState r) :
    TableBuilder.GoodState (TableBuilder.finishFooterStep env r mh ih) := by
  obtain ⟨hoff, hle, hpd, hbri⟩ := h
  unfold TableBuilder.finishFooterStep sinkAppend
  by_cases hok : r.status = Status.ok
  · by_cases hfail : env.failSet r.append_count = true
    · simp only [hok, hfail, ite_true]
      simp only [show (Status.ioError r.append_count = Status.ok) = False by simp,
        if_false, ite_false]
      exact ⟨fun hs => absurd hs (by simp), hle, hpd, hbri⟩
    · simp only [hok, hfail, Bool.not_eq_true] at *
      simp only [hfail, ite_true, ite_false, Bool.false_eq_true]
      have hoff' := hoff hok
      simp only [sinkBytes] at hoff' hle
      refine ⟨?_, ?_, hpd, hbri⟩
      · intro _
        simp [sinkBytes, hoff']
      · simp [sinkBytes]
        omega
  · simp only [hok, ite_false]
    exact ⟨hoff, hle, hpd, hbri⟩

/-- `Finish` keeps the builder in a good state. -/
theorem good_finish (env : Env) (r : TableRep) (h : TableBuilder.GoodState r) :
    TableBuilder.GoodState (TableBuilder.Finish env r) := by
  unfold TableBuilder.Finish
  dsimp only
  exact good_footerStep env _ _ _
    (good_indexStep env _
      (good_metaStep env _ _
        (good_filterStep env _
          (good_closed _ (good_flush env r h)))))

/-- `Abandon` keeps the builder in a good state. -/
theorem good_abandon (r : TableRep) (h : TableBuilder.GoodState r) :
    TableBuilder.GoodState (TableBuilder.Abandon r) :=
  good_of_fields' r _ h rfl rfl rfl rfl rfl rfl

/-- `ChangeOptions` keeps the builder in a good state. -/
theorem good_changeOptions (r : TableRep) (o : Options)
    (h : TableBuilder.GoodState r) :
    TableBuilder.GoodState (TableBuilder.ChangeOptions r o).2 := by
  obtain ⟨hoff, hle, hpd, hbri⟩ := h
  unfold TableBuilder.ChangeOptions
  by_cases hc : o.comparator = r.options.comparator <;> simp only [hc, ite_true, ite_false, ne_eq, not_true_eq_false, not_false_eq_true]
  · exact ⟨hoff, hle, hpd, rfl⟩
  · exact ⟨hoff, hle, hpd, hbri⟩

/-- Every reachable builder state is good. -/
theorem reachable_inv (env : Env) (r : TableRep)
    (h : TableBuilder.Reachable env r) : TableBuilder.GoodState r := by
  induction h with
  | init opt => exact good_new opt
  | add r k v _ _ _ ih => exact good_add env r k v ih
  | flush r _ _ ih => exact good_flush env r ih
  | finish r _ _ ih => exact good_finish env r ih
  | abandon r _ _ ih => exact good_abandon r ih
  | changeOptions r o _ ih => exact good_changeOptions r o ih

/-- `Flush` does not change the entry count. -/
theorem flush_num_entries (env : Env) (r : TableRep) :
    (TableBuilder.Flush env r).num_entries = r.num_entries := by
  by_cases hok : r.status = Status.ok
  · by_cases hemp : r.data_block = []
    · rw [flush_empty env r hemp]
    · exact (flush_spec env r hok hemp).2.2.1
  · rw [flush_err env r hok]

/-- `Flush` does not change `last_key`. -/
theorem flush_last_key (env : Env) (r : TableRep) :
    (TableBuilder.Flush env r).last_key = r.last_key := by
  by_cases hok : r.status = Status.ok
  · by_cases hemp : r.data_block = []
    · rw [flush_empty env r hemp]
    · exact (flush_spec env r hok hemp).2.2.2.1
  · rw [flush_err env r hok]

/-- `Flush` does not change the keys recorded by the filter builder. -/
theorem flush_filter_keys (env : Env) (r : TableRep) :
    (TableBuilder.Flush env r).filter_block.map FilterState.keys =
      r.filter_block.map FilterState.keys := by
  by_cases hok : r.status = Status.ok
  · by_cases hemp : r.data_block = []
    · rw [flush_empty env r hemp]
    · exact (flush_spec env r hok hemp).2.2.2.2.2.2.2.2.1
  · rw [flush_err env r hok]

/-- Field bookkeeping of the `Add` body before the flush check. -/
theorem addCore_fields (env : Env) (r : TableRep) (key value : ByteStr) :
    (TableBuilder.addCore env r key value).pending_index_entry = false ∧
    (TableBuilder.addCore env r key value).data_block = r.data_block ++ [(key, value)] ∧
    (TableBuilder.addCore env r key value).options = r.options ∧
    (TableBuilder.addCore env r key value).last_key = key ∧
    (TableBuilder.addCore env r key value).num_entries = r.num_entries + 1 ∧
    (TableBuilder.addCore env r key value).status = r.status ∧
    (TableBuilder.addCore env r key value).filter_block.map FilterState.keys =
      r.filter_block.map (fun fb => fb.keys ++ [key]) ∧
    (r.pending_index_entry = true →
      (TableBuilder.addCore env r key value).index_block =
        r.index_block ++ [(env.findShortestSeparator r.last_key key,
          encodeBlockHandle r.pending_handle)]) ∧
    (r.pending_index_entry = false →
      (TableBuilder.addCore env r key value).index_block = r.index_block) := by
  unfold TableBuilder.addCore
  by_cases hp : r.pending_index_entry = true
  all_goals cases hfb : r.filter_block
  all_goals simp_all

/-- C1: on an open, ok builder with `key` above the last added key, `Add`
runs its body — which materializes the deferred index entry
`(sep, encoded pending handle)` with `last_key ≤ sep < key` (given the
comparator's separator contract) and clears the flag exactly when the flag
was set, delivers `key` to the filter builder, sets `last_key` to `key`,
and appends `(key, value)` to the data accumulator — and then invokes
`Flush` iff the resulting data block's size estimate reaches the configured
block size; `NumEntries()` grows by exactly one. -/
theorem c1_add_contract (env : Env) (r : TableRep) (key value : ByteStr)
    (hclosed : r.closed = false) (hok : r.status = Status.ok)
    (hord : 0 < env.compare key r.last_key)
    (hsep : ∀ a b, 0 < env.compare b a →
      env.compare a (env.findShortestSeparator a b) ≤ 0 ∧
      0 < env.compare b (env.findShortestSeparator a b)) :
    (TableBuilder.Add env r key value =
      if env.sizeEstimate (TableBuilder.addCore env r key value).options
          (TableBuilder.addCore env r key value).data_block ≥
          (TableBuilder.addCore env r key value).options.block_size
      then TableBuilder.Flush env (TableBuilder.addCore env r key value)
      else TableBuilder.addCore env r key value) ∧
    (r.pending_index_entry = true →
      (TableBuilder.addCore env r key value).index_block =
        r.index_block ++ [(env.findShortestSeparator r.last_key key,
          encodeBlockHandle r.pending_handle)] ∧
      env.compare r.last_key (env.findShortestSeparator r.last_key key) ≤ 0 ∧
      0 < env.compare key (env.findShortestSeparator r.last_key key)) ∧
    (r.pending_index_entry = false →
      (TableBuilder.addCore env r key value).index_block = r.index_block) ∧
    (TableBuilder.addCore env r key value).pending_index_entry = false ∧
    (TableBuilder.addCore env r key value).data_block = r.data_block ++ [(key, value)] ∧
    (TableBuilder.addCore env r key value).options = r.options ∧
    (TableBuilder.Add env r key value).filter_block.map FilterState.keys =
      r.filter_block.map (fun fb => fb.keys ++ [key]) ∧
    TableBuilder.NumEntries (TableBuilder.Add env r key value) =
      TableBuilder.NumEntries r + 1 ∧
    (TableBuilder.Add env r key value).last_key = key := by
  obtain ⟨hpend, hdata, hopts, hlast, hnum, _, hkeys, hidx1, hidx0⟩ :=
    addCore_fields env r key value
  have heq : TableBuilder.Add env r key value =
      if env.sizeEstimate (TableBuilder.addCore env r key value).options
          (TableBuilder.addCore env r key value).data_block ≥
          (TableBuilder.addCore env r key value).options.block_size
      then TableBuilder.Flush env (TableBuilder.addCore env r key value)
      else TableBuilder.addCore env r key value := by
    unfold TableBuilder.Add
    simp [hok]
  refine ⟨heq, ?_, hidx0, hpend, hdata, hopts, ?_, ?_, ?_⟩
  · intro hp
    exact ⟨hidx1 hp, (hsep r.last_key key hord).1, (hsep r.last_key key hord).2⟩
  · rw [heq]
    split
    · rw [flush_filter_keys]; exact hkeys
    · exact hkeys
  · unfold TableBuilder.NumEntries
    rw [heq]
    split
    · rw [flush_num_entries]; exact hnum
    · exact hnum
  · rw [heq]
    split
    · rw [flush_last_key]; exact hlast
    · exact hlast

/-- Bytewise comparison is reflexive. -/
theorem lexCompare_self (a : ByteStr) : lexCompare a a = 0 := by
  induction a with
  | nil => rfl
  | cons x xs ih => simp [lexCompare, ih]

/-- Witness for C1: with a pending index entry staged, adding a key above
`last_key` appends the separator entry to the index accumulator and bumps
the entry count. -/
theorem c1_add_contract_witness :
    (TableBuilder.addCore envBase repPending [98] [118]).index_block =
      repPending.index_block ++ [([97], encodeBlockHandle repPending.pending_handle)] ∧
    TableBuilder.NumEntries (TableBuilder.Add envBase repPending [98] [118]) =
      TableBuilder.NumEntries repPending + 1 := by
  have h := c1_add_contract envBase repPending [98] [118] rfl rfl (by decide)
    (fun a b hb => ⟨by simp [envBase, lexCompare_self], by simpa [envBase] using hb⟩)
  exact ⟨(h.2.1 rfl).1, h.2.2.2.2.2.2.2.1⟩

/-- C3 counterexample: a non-empty `Flush` on an ok builder whose block
write fails (the sink rejects the payload append) does not set the
pending-index-entry flag and does not request a sink flush — contradicting
the claim that these happen "in every non-empty invocation, including those
where the block write fails".  (The filter builder does still receive
`StartBlock`.) -/
theorem c3_counterexample :
    (TableBuilder.Add envFail0 (TableBuilder.new optFilter) [97] [118]).data_block ≠ [] ∧
    (TableBuilder.Add envFail0 (TableBuilder.new optFilter) [97] [118]).status =
      Status.ok ∧
    (TableBuilder.Flush envFail0
        (TableBuilder.Add envFail0 (TableBuilder.new optFilter) [97] [118])).status ≠
      Status.ok ∧
    (TableBuilder.Flush envFail0
        (TableBuilder.Add envFail0 (TableBuilder.new optFilter) [97] [118])).pending_index_entry
      = false ∧
    (TableBuilder.Flush envFail0
        (TableBuilder.Add envFail0 (TableBuilder.new optFilter) [97] [118])).flush_requests
      = 0 ∧
    (TableBuilder.Flush envFail0
        (TableBuilder.Add envFail0 (TableBuilder.new optFilter) [97] [118])).filter_block =
      some ⟨[0, 0], [[97]]⟩ := by
  decide

/-- C3 (amended): `Flush` on an open, ok builder is a no-op when the data
accumulator is empty; otherwise it finalizes and writes the data block,
stores its handle as `pending_handle`, and notifies the filter builder via
`StartBlock` with the (possibly unchanged) current file offset, in every
non-empty invocation including those where the block write fails; the
pending-index-entry flag is set and the best-effort sink flush is requested
exactly when the block write succeeded — a failure of that sink flush is
itself latched into the status but retracts neither the flag nor the
request. -/
theorem c3_flush_contract (env : Env) (r : TableRep)
    (hclosed : r.closed = false) (hok : r.status = Status.ok) :
    (r.data_block = [] → TableBuilder.Flush env r = r) ∧
    (r.data_block ≠ [] →
      (TableBuilder.Flush env r).data_block = [] ∧
      (TableBuilder.Flush env r).pending_handle =
        ⟨r.offset, (TableBuilder.compressSelect env r.options.compression
            (env.blockFinish r.options r.data_block)).1.length⟩ ∧
      (TableBuilder.Flush env r).filter_block.map FilterState.startCalls =
        r.filter_block.map
          (fun fb => fb.startCalls ++ [(TableBuilder.Flush env r).offset]) ∧
      ((TableBuilder.WriteBlock env r r.options r.data_block).1.status = Status.ok →
        (TableBuilder.Flush env r).pending_index_entry = true ∧
        (TableBuilder.Flush env r).flush_requests = r.flush_requests + 1 ∧
        ((TableBuilder.Flush env r).status = Status.ok ↔
          env.flushFailSet r.flush_requests = false)) ∧
      ((TableBuilder.WriteBlock env r r.options r.data_block).1.status ≠ Status.ok →
        (TableBuilder.Flush env r).status ≠ Status.ok ∧
        (TableBuilder.Flush env r).pending_index_entry = r.pending_index_entry ∧
        (TableBuilder.Flush env r).flush_requests = r.flush_requests)) := by
  refine ⟨fun hemp => flush_empty env r hemp, fun hne => ?_⟩
  obtain ⟨hd, hph, _, _, _, _, _, _, _, hfs, hw, hf⟩ := flush_spec env r hok hne
  refine ⟨hd, hph, hfs, ?_, ?_⟩
  · intro hws
    obtain ⟨hp, hfr, -, -, hiff⟩ := hw hws
    exact ⟨hp, hfr, hiff⟩
  · intro hws
    obtain ⟨hs', hp, hfr, -, -⟩ := hf hws
    exact ⟨hs', hp, hfr⟩

/-- Witness for C3 (amended): flushing the builder holding one added entry
over the fault-free sink drains the data block, stages the handle
(offset 0, 10 payload bytes), sets the pending flag and requests one sink
flush. -/
theorem c3_flush_contract_witness :
    (TableBuilder.Flush envBase
        (TableBuilder.Add envBase (TableBuilder.new optFilter) [97] [118])).data_block
      = [] ∧
    (TableBuilder.Flush envBase
        (TableBuilder.Add envBase (TableBuilder.new optFilter) [97] [118])).pending_handle
      = ⟨0, 10⟩ ∧
    (TableBuilder.Flush envBase
        (TableBuilder.Add envBase
          (TableBuilder.new optFilter) [97] [118])).pending_index_entry = true ∧
    (TableBuilder.Flush envBase
        (TableBuilder.Add envBase
          (TableBuilder.new optFilter) [97] [118])).flush_requests = 1 := by
  have h := c3_flush_contract envBase
    (TableBuilder.Add envBase (TableBuilder.new optFilter) [97] [118]) rfl rfl
  obtain ⟨-, h2⟩ := h
  obtain ⟨hd, hph, -, hw, -⟩ := h2 (by decide)
  obtain ⟨hp, hfr, -⟩ := hw (by decide)
  refine ⟨hd, ?_, hp, ?_⟩
  · rw [hph]
    rfl
  · rw [hfr]
    decide

/-- C5: a block written through `WriteBlock` reaches the sink as the payload
and type byte chosen by the compression switch; the type byte is 1 with the
compressed payload iff the policy is snappy, compression succeeds and the
compressed size is strictly below `raw.len - raw.len/8`; in every other
case the raw payload is emitted with type byte 0, and under the none policy
the type is always 0. -/
theorem c5_compression_policy (env : Env) (r : TableRep) (bo : Options)
    (es : List (ByteStr × ByteStr))
    (h0 : env.failSet r.append_count = false)
    (h1 : env.failSet (r.append_count + 1) = false) :
    ((TableBuilder.WriteBlock env r bo es).1.file_pieces =
      r.file_pieces ++
        [(TableBuilder.compressSelect env r.options.compression (env.blockFinish bo es)).1,
         trailerOf env
           (TableBuilder.compressSelect env r.options.compression (env.blockFinish bo es)).1
           (TableBuilder.compressSelect env r.options.compression
             (env.blockFinish bo es)).2]) ∧
    ((TableBuilder.compressSelect env r.options.compression (env.blockFinish bo es)).2 = 1 ↔
      r.options.compression = CompressionType.kSnappyCompression ∧
      ∃ c, env.snappyCompress (env.blockFinish bo es) = some c ∧
        c.length < (env.blockFinish bo es).length - (env.blockFinish bo es).length / 8) ∧
    (∀ c, env.snappyCompress (env.blockFinish bo es) = some c →
      (TableBuilder.compressSelect env r.options.compression (env.blockFinish bo es)).2 = 1 →
      (TableBuilder.compressSelect env r.options.compression (env.blockFinish bo es)).1 = c) ∧
    ((TableBuilder.compressSelect env r.options.compression (env.blockFinish bo es)).2 = 1 ∨
      ((TableBuilder.compressSelect env r.options.compression (env.blockFinish bo es)).2 = 0 ∧
       (TableBuilder.compressSelect env r.options.compression (env.blockFinish bo es)).1 =
         env.blockFinish bo es)) ∧
    (r.options.compression = CompressionType.kNoCompression →
      (TableBuilder.compressSelect env r.options.compression (env.blockFinish bo es)).2 = 0 ∧
      (TableBuilder.compressSelect env r.options.compression (env.blockFinish bo es)).1 =
        env.blockFinish bo es) := by
  constructor
  · rw [writeBlock_eq]
    unfold TableBuilder.WriteRawBlock sinkAppend
    simp [h0, h1]
  · cases hct : r.options.compression with
    | kNoCompression =>
      simp [TableBuilder.compressSelect]
    | kSnappyCompression =>
      cases hc : env.snappyCompress (env.blockFinish bo es) with
      | none => simp [TableBuilder.compressSelect, hc]
      | some c =>
        by_cases hlen : c.length <
            (env.blockFinish bo es).length - (env.blockFinish bo es).length / 8
        · simp [TableBuilder.compressSelect, hc, hlen]
        · simp [TableBuilder.compressSelect, hc, hlen]

/-- Witness for C5: over the fault-free sink with the constant snappy codec
(everything compresses to one byte), writing a fresh builder's first block
emits the compressed payload with type byte 1. -/
theorem c5_compression_policy_witness :
    ((TableBuilder.WriteBlock envSnappy (TableBuilder.new optSnappy) optSnappy
        [([97], [118])]).1.file_pieces =
      [] ++
        [(TableBuilder.compressSelect envSnappy
            (TableBuilder.new optSnappy).options.compression
            (envSnappy.blockFinish optSnappy [([97], [118])])).1,
         trailerOf envSnappy
           (TableBuilder.compressSelect envSnappy
             (TableBuilder.new optSnappy).options.compression
             (envSnappy.blockFinish optSnappy [([97], [118])])).1
           (TableBuilder.compressSelect envSnappy
             (TableBuilder.new optSnappy).options.compression
             (envSnappy.blockFinish optSnappy [([97], [118])])).2]) ∧
    (TableBuilder.compressSelect envSnappy
        (TableBuilder.new optSnappy).options.compression
        (envSnappy.blockFinish optSnappy [([97], [118])])).2 = 1 := by
  have h := c5_compression_policy envSnappy (TableBuilder.new optSnappy) optSnappy
    [([97], [118])] rfl rfl
  refine ⟨h.1, ?_⟩
  exact h.2.1.mpr ⟨rfl, [7], rfl, by decide⟩

/-- C6 counterexample: finishing a fresh builder that has a filter policy
configured writes 7 pieces to the sink, the first being the filter
builder's serialized output — a filter block IS written even though no key
was added, contradicting the claim's "no filter block is written even when
a filter policy is configured" and its three-part file layout. -/
theorem c6_counterexample :
    (TableBuilder.Finish envBase (TableBuilder.new optFilter)).file_pieces.length = 7 ∧
    (TableBuilder.Finish envBase (TableBuilder.new optFilter)).file_pieces.head? =
      some (envBase.filterFinish [0] []) := by
  decide

/-- C6 (amended): finishing a fresh builder (no prior `Add`) over a
fault-free sink writes no data blocks; with no filter policy the file is
exactly a metaindex block, an empty index block and the footer; with a
filter policy configured, a filter block (covering no keys) is written
first, the metaindex block carries its `"filter.<name>"` entry, and the
empty index block and footer follow. -/
theorem c6_empty_table (env : Env) (opt : Options)
    (hfail : ∀ n, env.failSet n = false) :
    (opt.filter_policy = none →
      (TableBuilder.Finish env (TableBuilder.new opt)).file_pieces =
        (let mc := TableBuilder.compressSelect env opt.compression (env.blockFinish opt []);
         let ic := TableBuilder.compressSelect env opt.compression
           (env.blockFinish { opt with block_restart_interval := 1 } []);
         [mc.1, trailerOf env mc.1 mc.2, ic.1, trailerOf env ic.1 ic.2,
          encodeFooter ⟨0, mc.1.length⟩ ⟨mc.1.length + 5, ic.1.length⟩])) ∧
    (∀ p, opt.filter_policy = some p →
      (TableBuilder.Finish env (TableBuilder.new opt)).file_pieces =
        (let F := env.filterFinish [0] [];
         let mc := TableBuilder.compressSelect env opt.compression
           (env.blockFinish opt [([102, 105, 108, 116, 101, 114, 46] ++ env.policyName p,
              encodeBlockHandle ⟨0, F.length⟩)]);
         let ic := TableBuilder.compressSelect env opt.compression
           (env.blockFinish { opt with block_restart_interval := 1 } []);
         [F, trailerOf env F 0, mc.1, trailerOf env mc.1 mc.2,
          ic.1, trailerOf env ic.1 ic.2,
          encodeFooter ⟨F.length + 5, mc.1.length⟩
            ⟨F.length + 5 + mc.1.length + 5, ic.1.length⟩])) := by
  constructor
  · intro hfp
    simp [TableBuilder.Finish, TableBuilder.new, TableBuilder.mkRep, hfp,
      TableBuilder.Flush, TableBuilder.finishFilterStep, TableBuilder.finishMetaStep,
      TableBuilder.finishIndexStep, TableBuilder.finishFooterStep,
      TableBuilder.WriteBlock, TableBuilder.WriteRawBlock, sinkAppend, hfail,
      kBlockTrailerSize]
  · intro p hfp
    simp [TableBuilder.Finish, TableBuilder.new, TableBuilder.mkRep, hfp,
      TableBuilder.Flush, TableBuilder.finishFilterStep, TableBuilder.finishMetaStep,
      TableBuilder.finishIndexStep, TableBuilder.finishFooterStep,
      TableBuilder.WriteBlock, TableBuilder.WriteRawBlock, sinkAppend, hfail,
      kBlockTrailerSize, FilterState.init]

/-- Witness for C6 (amended) at the fault-free environment without a filter
policy. -/
theorem c6_empty_table_witness :
    (TableBuilder.Finish envBase (TableBuilder.new optPlain)).file_pieces =
      (let mc := TableBuilder.compressSelect envBase optPlain.compression
         (envBase.blockFinish optPlain []);
       let ic := TableBuilder.compressSelect envBase optPlain.compression
         (envBase.blockFinish { optPlain with block_restart_interval := 1 } []);
       [mc.1, trailerOf envBase mc.1 mc.2, ic.1, trailerOf envBase ic.1 ic.2,
        encodeFooter ⟨0, mc.1.length⟩ ⟨mc.1.length + 5, ic.1.length⟩]) :=
  (c6_empty_table envBase optPlain (fun _ => rfl)).1 rfl

/-- C2 counterexample: with a sink whose second append (the trailer of the
metaindex block) fails, `Finish` on a fresh builder leaves `FileSize()` at 0
while 8 bytes (the metaindex payload) were appended to the sink — so in a
run with a failing append, the offset does not equal the total bytes
appended, contradicting the claim's "including runs in which a sink Append
fails". -/
theorem c2_counterexample :
    TableBuilder.FileSize (TableBuilder.Finish envFail1 (TableBuilder.new optPlain)) = 0 ∧
    sinkBytes (TableBuilder.Finish envFail1 (TableBuilder.new optPlain)) = 8 ∧
    TableBuilder.FileSize (TableBuilder.Finish envFail1 (TableBuilder.new optPlain)) ≠
      sinkBytes (TableBuilder.Finish envFail1 (TableBuilder.new optPlain)) := by
  decide

/-- C2 (amended): in every reachable builder state the file offset never
exceeds the total bytes appended to the sink, and equals it whenever the
builder's status is ok — hence at every point of every run in which all
appends succeed, and after every `Finish` that returns ok, `FileSize()`
equals the total bytes appended.  A trailer append that fails after its
block's payload append succeeded leaves the offset strictly behind the
sink. -/
theorem c2_offset_accounting (env : Env) (r : TableRep)
    (h : TableBuilder.Reachable env r) :
    TableBuilder.FileSize r ≤ sinkBytes r ∧
    (r.status = Status.ok → TableBuilder.FileSize r = sinkBytes r) := by
  obtain ⟨a, b, _, _⟩ := reachable_inv env r h
  exact ⟨b, a⟩

/-- Witness for C2 (amended) at the state reached by finishing a fresh
builder over the fault-free sink. -/
theorem c2_offset_accounting_witness :
    TableBuilder.FileSize (TableBuilder.Finish envBase (TableBuilder.new optPlain)) ≤
        sinkBytes (TableBuilder.Finish envBase (TableBuilder.new optPlain)) ∧
    ((TableBuilder.Finish envBase (TableBuilder.new optPlain)).status = Status.ok →
      TableBuilder.FileSize (TableBuilder.Finish envBase (TableBuilder.new optPlain)) =
        sinkBytes (TableBuilder.Finish envBase (TableBuilder.new optPlain))) :=
  c2_offset_accounting envBase _
    (TableBuilder.Reachable.finish _ (TableBuilder.Reachable.init optPlain) rfl)

/-- C4: in every reachable builder state — after construction and after every
`Add`, `Flush`, `Finish`, `Abandon` and `ChangeOptions` — the
pending-index-entry flag (a single boolean, so at most one pending entry
exists) implies that the data-block accumulator is empty. -/
theorem c4_pending_implies_empty (env : Env) (r : TableRep)
    (h : TableBuilder.Reachable env r) :
    r.pending_index_entry = true → r.data_block = [] :=
  (reachable_inv env r h).2.2.1

/-- Witness for C4 at the state reached by one `Add` and a successful
`Flush` on a fresh builder, where the pending flag is set. -/
theorem c4_pending_implies_empty_witness :
    (TableBuilder.Flush envBase
        (TableBuilder.Add envBase (TableBuilder.new optPlain) [97] [118])).data_block
      = [] :=
  c4_pending_implies_empty envBase _
    (TableBuilder.Reachable.flush _
      (TableBuilder.Reachable.add _ [97] [118] (TableBuilder.Reachable.init optPlain) rfl
        (fun _ => by decide))
      (by decide))
    (by decide)

/-- C9: in every reachable builder state the index-block accumulator's
options carry restart interval 1 — set at construction and re-forced to 1
by every successful `ChangeOptions`, regardless of the
`block_restart_interval` carried by the new options. -/
theorem c9_index_restart_interval (env : Env) (r : TableRep)
    (h : TableBuilder.Reachable env r) :
    r.index_block_options.block_restart_interval = 1 :=
  (reachable_inv env r h).2.2.2

/-- Witness for C9 at the state reached by a successful `ChangeOptions`
carrying restart interval 77. -/
theorem c9_index_restart_interval_witness :
    (TableBuilder.ChangeOptions (TableBuilder.new optPlain)
        { optPlain with
          block_restart_interval := 77 }).2.index_block_options.block_restart_interval
      = 1 :=
  c9_index_restart_interval envBase _
    (TableBuilder.Reachable.changeOptions _ _ (TableBuilder.Reachable.init optPlain))

/-- C8: `ChangeOptions` with a different comparator returns an
invalid-argument error and leaves the builder (its options included)
unchanged; with the same comparator it returns ok and installs the new
options, the index-block options following with restart interval forced
back to 1. -/
theorem c8_changeOptions (r : TableRep) (o : Options) :
    (o.comparator ≠ r.options.comparator →
      TableBuilder.ChangeOptions r o = (Status.invalidArgument, r)) ∧
    (o.comparator = r.options.comparator →
      TableBuilder.ChangeOptions r o =
        (Status.ok, { r with options := o,
                             index_block_options := { o with block_restart_interval := 1 } })) := by
  unfold TableBuilder.ChangeOptions
  constructor <;> intro h <;> simp [h]

/-- Witness for C8: a comparator change on a concrete builder is rejected
with the state unchanged. -/
theorem c8_changeOptions_witness :
    TableBuilder.ChangeOptions (TableBuilder.new optPlain) { optPlain with comparator := 1 }
      = (Status.invalidArgument, TableBuilder.new optPlain) :=
  (c8_changeOptions (TableBuilder.new optPlain) { optPlain with comparator := 1 }).1
    (by decide)
